import Mathlib

set_option maxHeartbeats 1000000

/-! Verification of the knowledge-base search engine RAG pipeline:
the chunker from src/backend/document_utils.py (`DocumentParser.chunk_text`)
and the `RAGSystem` operations from src/backend/rag.py (`add_document`,
`retrieve`, `synthesize_answer`, `clear`, `save_index`, `load_index`,
`get_document_count`, `list_documents`).

Text is modelled as `List Char`, Python `int` as `Int`.  Python slice and
`str.rfind(sub, a, b)` index conventions (negative indices count from the
end, then clamp into `[0, len]`) are embedded explicitly, because the
chunker's cursor arithmetic can go negative. -/

/-- Python slice-index normalisation: a negative index counts from the end
of the string, and the result is clamped into `[0, L]`. -/
def clampIdx (L : Nat) (i : Int) : Nat :=
  (min (if i < 0 then (L : Int) + i else i) (L : Int)).toNat

/-- Python `text[a:b]` for arbitrary integer bounds. -/
def pySlice (text : List Char) (a b : Int) : List Char :=
  (text.drop (clampIdx text.length a)).take (clampIdx text.length b - clampIdx text.length a)

/-- Whether `sub` occurs in `text` starting at (0-based) position `i`. -/
def matchAt (text sub : List Char) (i : Nat) : Bool :=
  decide ((text.drop i).take sub.length = sub)

/-- Scan candidate positions `k, k-1, ..., lo` for the rightmost match of
`sub`; `-1` when there is none. -/
def rfindFrom (text sub : List Char) (lo : Nat) : Nat → Int
  | 0 => if lo = 0 ∧ matchAt text sub 0 = true then 0 else -1
  | k + 1 =>
    if lo ≤ k + 1 ∧ matchAt text sub (k + 1) = true then ((k : Int) + 1)
    else rfindFrom text sub lo k

/-- Python `text.rfind(sub, a, b)`: the highest position `i` with
`a' ≤ i` and `i + len(sub) ≤ b'` at which `sub` occurs (indices normalised
as in slice notation), else `-1`. -/
def pyRfind (text sub : List Char) (a b : Int) : Int :=
  if clampIdx text.length b < clampIdx text.length a + sub.length then -1
  else rfindFrom text sub (clampIdx text.length a) (clampIdx text.length b - sub.length)

/-- Python `str` whitespace as relevant to `str.strip()` (ASCII subset:
space, tab, newline, carriage return, vertical tab, form feed). -/
def pyIsSpace (c : Char) : Bool :=
  c == ' ' || c == '\t' || c == '\n' || c == '\r' || c == Char.ofNat 11 || c == Char.ofNat 12

/-- Python `str.strip()`: remove whitespace from both ends. -/
def pyStrip (l : List Char) : List Char :=
  ((l.dropWhile pyIsSpace).reverse.dropWhile pyIsSpace).reverse

/-- The sentence delimiters of `chunk_text`, in the priority order of the
source's `for delimiter in [...]` loop. -/
def sentenceDelims : List (List Char) :=
  [['.', ' '], ['.', '\n'], ['!', ' '], ['!', '\n'], ['?', ' '], ['?', '\n']]

/-- The source's delimiter loop: the first delimiter of the list that has an
occurrence in the window `[s, e)` wins, and `end` becomes the position just
after that occurrence (`boundary + len(delimiter)`). -/
def tryDelims (text : List Char) (s e : Int) : List (List Char) → Option Int
  | [] => none
  | d :: rest =>
    if pyRfind text d s e = -1 then tryDelims text s e rest
    else some (pyRfind text d s e + (d.length : Int))

/-- Boundary adjustment of one chunking step (only applied when
`end < len(text)`): try the sentence delimiters, then fall back to the
nearest preceding space (`boundary + 1`), else keep `e`. -/
def stepEnd (text : List Char) (s e : Int) : Int :=
  match tryDelims text s e sentenceDelims with
  | some e2 => e2
  | none =>
    if pyRfind text [' '] s e = -1 then e
    else pyRfind text [' '] s e + 1

/-- The tentative chunk end of one step: `start + chunk_size`, boundary
adjusted only when it falls before the text's natural end. -/
def nextEnd (text : List Char) (cs s : Int) : Int :=
  if s + cs < (text.length : Int) then stepEnd text s (s + cs) else s + cs

/-- The cursor update of one step: forced advance by `max 1 chunk_size`
when `end ≤ start`, otherwise `end - overlap`, except that reaching the
text's natural end moves the cursor to `len(text)`. -/
def nextStart (text : List Char) (cs ov s e : Int) : Int :=
  if e ≤ s then s + max 1 cs
  else if e < (text.length : Int) then e - ov
  else (text.length : Int)

/-- The `while start < text_length and iteration_count < max_iterations`
loop of `chunk_text`, with the remaining permitted iterations as fuel.
Whitespace-stripped empty chunks are dropped silently. -/
def chunkLoop (text : List Char) (cs ov : Int) : Nat → Int → List (List Char)
  | 0, _ => []
  | fuel + 1, s =>
    if s < (text.length : Int) then
      if pyStrip (pySlice text s (nextEnd text cs s)) = [] then
        chunkLoop text cs ov fuel (nextStart text cs ov s (nextEnd text cs s))
      else
        pyStrip (pySlice text s (nextEnd text cs s)) ::
          chunkLoop text cs ov fuel (nextStart text cs ov s (nextEnd text cs s))
    else []

/-- `DocumentParser.chunk_text(text, chunk_size, overlap)` from
src/backend/document_utils.py: empty text gives no chunks, otherwise the
cursor loop runs with the source's hard cap of 10000 iterations. -/
def chunk_text (text : List Char) (cs ov : Int) : List (List Char) :=
  if text = [] then [] else chunkLoop text cs ov 10000 0

/-! ## The RAG system state (src/backend/rag.py)

The embedding model is external (`sentence_transformers`); it is passed in
as an abstract function `embed : List Char → List ℚ`, one vector per chunk,
exactly as `RAGSystem.add_document` consumes `self.embedding_model.encode`.
Vector components are modelled with exact rationals: no claim below depends
on float rounding. -/

/-- One entry of `RAGSystem.documents`:
`{"text": chunk, "source": source, "chunk_id": i}`. -/
structure DocRecord where
  text : List Char
  source : List Char
  chunk_id : Nat
deriving DecidableEq

/-- The in-memory FAISS index: its fixed dimension plus the vectors added
so far (`ntotal = vectors.length`). -/
structure FaissIndex where
  dim : Nat
  vectors : List (List ℚ)
deriving DecidableEq

/-- The mutable state of a `RAGSystem` instance. -/
structure RAGState where
  embedding_dim : Nat
  chunk_size : Int
  chunk_overlap : Int
  index : FaissIndex
  documents : List DocRecord
deriving DecidableEq

/-- `RAGSystem.__init__`: an empty `IndexFlatL2(embedding_dim)` and an empty
document store. -/
def initRAG (dim : Nat) (cs ov : Int) : RAGState :=
  { embedding_dim := dim, chunk_size := cs, chunk_overlap := ov,
    index := { dim := dim, vectors := [] }, documents := [] }

/-- `RAGSystem.add_document(text, source)`: chunk, return unchanged when no
chunks were produced, otherwise embed each chunk, append the embeddings to
the FAISS index and append one metadata record per chunk (with `chunk_id`
enumerated from 0) to `documents`. -/
def add_document (embed : List Char → List ℚ) (s : RAGState)
    (text source : List Char) : RAGState :=
  if chunk_text text s.chunk_size s.chunk_overlap = [] then s
  else
    { s with
      index := { s.index with
        vectors := s.index.vectors ++ (chunk_text text s.chunk_size s.chunk_overlap).map embed },
      documents := s.documents ++
        (chunk_text text s.chunk_size s.chunk_overlap).enum.map
          (fun p => { text := p.2, source := source, chunk_id := p.1 }) }

/-- `RAGSystem.clear()`: fresh empty index of the same dimension, empty
document store. -/
def clear (s : RAGState) : RAGState :=
  { s with index := { dim := s.embedding_dim, vectors := [] }, documents := [] }

/-- `RAGSystem.get_document_count()`. -/
def get_document_count (s : RAGState) : Nat := s.documents.length

/-- `RAGSystem.list_documents()`: the distinct sources.  Python builds
`list(set(...))` whose order is unspecified; modelled deterministically by
`dedup`. -/
def list_documents (s : RAGState) : List (List Char) :=
  (s.documents.map (fun d => d.source)).dedup

/-- Squared Euclidean distance, the metric of `faiss.IndexFlatL2`. -/
def sqDist (u v : List ℚ) : ℚ :=
  ((u.zip v).map (fun p => (p.1 - p.2) * (p.1 - p.2))).sum

/-- Insertion step of the exact-search ranking: ascending distance, ties
broken by smaller position. -/
def insertScored (x : Nat × ℚ) : List (Nat × ℚ) → List (Nat × ℚ)
  | [] => [x]
  | y :: ys =>
    if x.2 < y.2 ∨ (x.2 = y.2 ∧ x.1 ≤ y.1) then x :: y :: ys
    else y :: insertScored x ys

/-- Insertion sort by `(distance, position)`. -/
def sortScored : List (Nat × ℚ) → List (Nat × ℚ)
  | [] => []
  | x :: xs => insertScored x (sortScored xs)

/-- Modelled from the spec: the vector search of `faiss.IndexFlatL2.search`
is performed by the external faiss library, whose code is not part of this
repository.  Spec section 4.2: exact k-nearest-neighbour by ascending squared
Euclidean distance, ties broken by smaller position, result length
`min(k, current_size)`, and `k <= 0` (or an empty index) yields an empty
sequence, not an error. -/
def index_search (vectors : List (List ℚ)) (q : List ℚ) (k : Int) : List (Nat × ℚ) :=
  if k ≤ 0 then []
  else (sortScored (vectors.enum.map (fun p => (p.1, sqDist q p.2)))).take k.toNat

/-- `RAGSystem.retrieve(query, top_k)`: empty store short-circuits to `[]`;
otherwise the query is embedded, the index searched with
`min(top_k, len(documents))`, and each hit position joined back to its
document record (positions out of range are skipped), keeping the index's
ranking order and attaching the distance as the score. -/
def retrieve (embed : List Char → List ℚ) (s : RAGState)
    (query : List Char) (top_k : Int) : List (DocRecord × ℚ) :=
  if s.documents.length = 0 then []
  else
    (index_search s.index.vectors (embed query) (min top_k (s.documents.length : Int))).filterMap
      (fun h => if hh : h.1 < s.documents.length
        then some (s.documents.get ⟨h.1, hh⟩, h.2) else none)

/-! ## Answer synthesis (`RAGSystem.synthesize_answer`)

The generation backends (OpenAI / HuggingFace inference clients) are
external; the whole guarded call — transport, response parsing, `.strip()`
of a malformed response — is modelled as one fallible function
`backend : prompt → Except Unit answer`, a `.error` being any exception the
source's `except Exception` catches. -/

/-- An ASCII apostrophe (several source strings contain one). -/
def apos : List Char := [Char.ofNat 39]

/-- The fixed message returned when no context documents were retrieved. -/
def no_info_msg : List Char :=
  "I couldn".toList ++ apos ++
    "t find any relevant information in the knowledge base to answer your question.".toList

/-- The grounding context: one labelled block per retrieved document,
joined with blank lines. -/
def build_context (docs : List (DocRecord × ℚ)) : List Char :=
  List.intercalate ("\n\n".toList)
    (docs.map (fun d =>
      "[Source: ".toList ++ d.1.source ++ ", Chunk ".toList ++
        (toString d.1.chunk_id).toList ++ "]\n".toList ++ d.1.text))

/-- The full LLM prompt of `synthesize_answer`. -/
def build_prompt (query : List Char) (docs : List (DocRecord × ℚ)) : List Char :=
  "Using the following documents from the knowledge base, answer the user".toList ++ apos ++
    "s question succinctly and accurately.\n\nContext from documents:\n".toList ++
    build_context docs ++
    "\n\nUser".toList ++ apos ++ "s question: ".toList ++ query ++
    "\n\nInstructions:\n- Provide a clear, concise answer based on the context\n- If the context doesn".toList ++
    apos ++
    "t contain enough information, say so\n- Cite sources when possible (e.g., \"According to [source]...\")\n- Be factual and don".toList ++
    apos ++ "t make up information\n\nAnswer:".toList

/-- `RAGSystem._fallback_answer`: deterministic extractive answer — an
enumerated 300-character preview of each retrieved document (the `query`
parameter is accepted but unused, as in the source). -/
def fallback_answer (query : List Char) (docs : List (DocRecord × ℚ)) : List Char :=
  "Based on the available documents:\n\n".toList ++
    (docs.enum.map (fun p =>
      (toString (p.1 + 1)).toList ++ ". From ".toList ++ p.2.1.source ++ ":\n".toList ++
        (if p.2.1.text.length > 300 then p.2.1.text.take 300 ++ "...".toList else p.2.1.text) ++
        "\n\n".toList)).flatten

/-- The configured LLM provider (`LLM_PROVIDER`, lower-cased). -/
inductive Provider
  | openai
  | huggingface
  | other
deriving DecidableEq

/-- The synthesis configuration fixed at `__init__`: the provider and
whether a HuggingFace client was actually constructed (an API key was
present). -/
structure LLMConfig where
  provider : Provider
  hf_client : Bool
deriving DecidableEq

/-- `RAGSystem.synthesize_answer(query, context_docs)`: the fixed message on
empty context; otherwise the provider branch runs the backend inside
`try/except`, stripping a successful answer and degrading to
`_fallback_answer` on any failure, on a missing HuggingFace client, and for
unrecognised providers. -/
def synthesize_answer (cfg : LLMConfig) (backend : List Char → Except Unit (List Char))
    (query : List Char) (context_docs : List (DocRecord × ℚ)) : List Char :=
  if context_docs = [] then no_info_msg
  else
    match cfg.provider with
    | Provider.openai =>
      match backend (build_prompt query context_docs) with
      | Except.ok r => pyStrip r
      | Except.error _ => fallback_answer query context_docs
    | Provider.huggingface =>
      if cfg.hf_client then
        match backend (build_prompt query context_docs) with
        | Except.ok r => pyStrip r
        | Except.error _ => fallback_answer query context_docs
      else fallback_answer query context_docs
    | Provider.other => fallback_answer query context_docs

/-! ## Snapshot I/O (`save_index` / `load_index`)

The durable storage (`faiss.write_index` / `faiss.read_index` and the
`documents.json` dump) is external to the pipeline; per spec section 4.6 the
snapshot artifacts restore the index and the chunk sequence, so the byte
round-trip is modelled as a lossless value store. -/

/-- The pair of co-located artifacts written by `RAGSystem.save_index`. -/
structure Snapshot where
  index : FaissIndex
  documents : List DocRecord
deriving DecidableEq

/-- `RAGSystem.save_index(path)`. -/
def save_index (s : RAGState) : Snapshot :=
  { index := s.index, documents := s.documents }

/-- `RAGSystem.load_index(path)`: a missing path is a warning no-op;
otherwise the in-memory index and document store are unconditionally
replaced by the snapshot's — the source performs no dimension check. -/
def load_index (snap : Option Snapshot) (s : RAGState) : RAGState :=
  match snap with
  | none => s
  | some t => { s with index := t.index, documents := t.documents }

/-- The two mutating operations of the knowledge base. -/
inductive RAGOp
  | add (text source : List Char)
  | clearAll
deriving DecidableEq

/-- Run one mutating operation. -/
def apply_op (embed : List Char → List ℚ) (s : RAGState) : RAGOp → RAGState
  | RAGOp.add text source => add_document embed s text source
  | RAGOp.clearAll => clear s

/-- Run a sequence of ingest/clear operations. -/
def apply_ops (embed : List Char → List ℚ) (ops : List RAGOp) (s : RAGState) : RAGState :=
  ops.foldl (apply_op embed) s

/-! ## Concrete instances used by counterexamples and witnesses -/

/-- A non-empty knowledge base with one stored chunk. -/
def w3state : RAGState :=
  { embedding_dim := 2, chunk_size := 500, chunk_overlap := 50,
    index := { dim := 2, vectors := [[0, 0]] },
    documents := [{ text := "t".toList, source := "s".toList, chunk_id := 0 }] }

/-- A system configured with embedding dimension 3. -/
def c4state : RAGState := initRAG 3 500 50

/-- A snapshot whose recorded vector dimension is 2. -/
def c4snap : Snapshot :=
  { index := { dim := 2, vectors := [[1, 2]] },
    documents := [{ text := "a".toList, source := "s".toList, chunk_id := 0 }] }

/-- A context document for the synthesis witness. -/
def w5doc : DocRecord := { text := "alpha".toList, source := "doc1".toList, chunk_id := 0 }

/-- A 35-character text whose only sentence delimiter sits so that
`start = end - overlap` reproduces the same cursor position forever:
`"xxx. "` followed by thirty `y`s, chunked with `chunk_size = 10`,
`overlap = 5`. -/
def c8text : List Char := "xxx. yyyyyyyyyyyyyyyyyyyyyyyyyyyyyy".toList

/-- The chunk the stalled loop emits on every iteration. -/
def c8chunk : List Char := "xxx.".toList

/-- The reconstruction of spec section 8 (chunk coverage): concatenate the
chunks, removing from every chunk but the first its declared overlap with
the predecessor. -/
def reconstruct (ov : Nat) : List (List Char) → List Char
  | [] => []
  | c :: rest => c ++ (rest.map (fun x => x.drop ov)).flatten

/-! ## Helper lemmas about the Python-semantics primitives -/

lemma length_dropWhile_le (p : Char → Bool) (l : List Char) :
    (l.dropWhile p).length ≤ l.length := by
  induction l with
  | nil => simp
  | cons a t ih => by_cases h : p a <;> simp [List.dropWhile, h] <;> omega

lemma pyStrip_length_le (l : List Char) : (pyStrip l).length ≤ l.length := by
  simp only [pyStrip, List.length_reverse]
  calc ((l.dropWhile pyIsSpace).reverse.dropWhile pyIsSpace).length
      ≤ (l.dropWhile pyIsSpace).reverse.length := length_dropWhile_le _ _
    _ = (l.dropWhile pyIsSpace).length := List.length_reverse _
    _ ≤ l.length := length_dropWhile_le _ _

lemma pyStrip_nil_of_all (l : List Char) (h : ∀ c ∈ l, pyIsSpace c = true) :
    pyStrip l = [] := by
  have h1 : l.dropWhile pyIsSpace = [] := List.dropWhile_eq_nil_iff.mpr h
  simp [pyStrip, h1]

lemma pySlice_subset (text : List Char) (a b : Int) :
    ∀ c ∈ pySlice text a b, c ∈ text := by
  intro c hc
  simp only [pySlice] at hc
  exact List.drop_subset _ _ (List.take_subset _ _ hc)

lemma clampIdx_le_of_nonneg (L : Nat) (i : Int) (h : 0 ≤ i) :
    (clampIdx L i : Int) ≤ i := by
  unfold clampIdx
  split <;> omega

lemma rfindFrom_le (text sub : List Char) (lo : Nat) :
    ∀ k : Nat, rfindFrom text sub lo k ≠ -1 →
      0 ≤ rfindFrom text sub lo k ∧ rfindFrom text sub lo k ≤ (k : Int) := by
  intro k
  induction k with
  | zero =>
    intro h
    by_cases hc : lo = 0 ∧ matchAt text sub 0 = true
    · simp [rfindFrom, hc]
    · simp [rfindFrom, hc] at h
  | succ n ih =>
    intro h
    by_cases hc : lo ≤ n + 1 ∧ matchAt text sub (n + 1) = true
    · simp only [rfindFrom, if_pos hc]
      constructor <;> omega
    · simp only [rfindFrom, if_neg hc] at h ⊢
      have h2 := ih h
      exact ⟨h2.1, by have := h2.2; omega⟩

lemma pyRfind_le (text sub : List Char) (a b : Int) (h : pyRfind text sub a b ≠ -1) :
    0 ≤ pyRfind text sub a b ∧
      pyRfind text sub a b + (sub.length : Int) ≤ (clampIdx text.length b : Int) := by
  by_cases hc : clampIdx text.length b < clampIdx text.length a + sub.length
  · simp [pyRfind, hc] at h
  · simp only [pyRfind, if_neg hc] at h ⊢
    have hb := rfindFrom_le text sub (clampIdx text.length a)
      (clampIdx text.length b - sub.length) h
    exact ⟨hb.1, by have := hb.2; omega⟩

lemma tryDelims_le (text : List Char) (s e : Int) :
    ∀ ds r, tryDelims text s e ds = some r →
      0 ≤ r ∧ r ≤ (clampIdx text.length e : Int) := by
  intro ds
  induction ds with
  | nil => intro r h; simp [tryDelims] at h
  | cons d rest ih =>
    intro r h
    by_cases hc : pyRfind text d s e = -1
    · simp only [tryDelims, if_pos hc] at h
      exact ih r h
    · simp only [tryDelims, if_neg hc] at h
      obtain ⟨h1, h2⟩ := pyRfind_le text d s e hc
      injection h with h3
      subst h3
      constructor <;> omega

lemma stepEnd_le (text : List Char) (s e : Int) (he : 0 ≤ e) :
    0 ≤ stepEnd text s e ∧ stepEnd text s e ≤ e := by
  have hcl : (clampIdx text.length e : Int) ≤ e := clampIdx_le_of_nonneg _ _ he
  cases htd : tryDelims text s e sentenceDelims with
  | some e2 =>
    have h2 := tryDelims_le text s e sentenceDelims e2 htd
    simp only [stepEnd, htd]
    exact ⟨h2.1, by have := h2.2; omega⟩
  | none =>
    by_cases hsp : pyRfind text [' '] s e = -1
    · simp only [stepEnd, htd, if_pos hsp]
      exact ⟨he, le_refl e⟩
    · simp only [stepEnd, htd, if_neg hsp]
      obtain ⟨h1, h2⟩ := pyRfind_le text [' '] s e hsp
      simp only [List.length_singleton] at h2
      constructor <;> omega

lemma nextEnd_le (text : List Char) (cs s : Int) (h : 0 ≤ s + cs) :
    0 ≤ nextEnd text cs s ∧ nextEnd text cs s ≤ s + cs := by
  unfold nextEnd
  split
  · exact stepEnd_le text s (s + cs) h
  · exact ⟨h, le_refl _⟩

lemma nextStart_ge (text : List Char) (cs ov s e : Int) (hov : 0 ≤ ov)
    (hs : -ov ≤ s) (he : 0 ≤ e) : -ov ≤ nextStart text cs ov s e := by
  unfold nextStart
  split
  · have h1 : 1 ≤ max 1 cs := le_max_left _ _
    omega
  · split
    · omega
    · omega

lemma pySlice_length_le (text : List Char) (a b cs : Int) (hcs : 0 ≤ cs)
    (hb : 0 ≤ b) (hba : b ≤ a + cs) : (pySlice text a b).length ≤ cs.toNat := by
  simp only [pySlice, List.length_take, List.length_drop]
  unfold clampIdx
  split <;> split <;> omega

/-! ## The chunk-length invariant of the cursor loop -/

lemma chunkLoop_chunk_le (text : List Char) (cs ov : Int) (hov : 0 ≤ ov) (hcs : ov < cs) :
    ∀ (fuel : Nat) (s : Int), -ov ≤ s →
      ∀ c ∈ chunkLoop text cs ov fuel s, c.length ≤ cs.toNat := by
  intro fuel
  induction fuel with
  | zero => intro s _ c hc; simp [chunkLoop] at hc
  | succ n ih =>
    intro s hs c hc
    rw [chunkLoop] at hc
    by_cases hlt : s < (text.length : Int)
    · rw [if_pos hlt] at hc
      have hsc : 0 ≤ s + cs := by omega
      have hne := nextEnd_le text cs s hsc
      have hnext : -ov ≤ nextStart text cs ov s (nextEnd text cs s) :=
        nextStart_ge text cs ov s _ hov hs hne.1
      have hlen : (pyStrip (pySlice text s (nextEnd text cs s))).length ≤ cs.toNat :=
        le_trans (pyStrip_length_le _)
          (pySlice_length_le text s _ cs (by omega) hne.1 hne.2)
      by_cases hemp : pyStrip (pySlice text s (nextEnd text cs s)) = []
      · rw [if_pos hemp] at hc
        exact ih _ hnext c hc
      · rw [if_neg hemp] at hc
        rcases List.mem_cons.mp hc with h | h
        · subst h; exact hlen
        · exact ih _ hnext c h
    · rw [if_neg hlt] at hc
      simp at hc

/-! ## Whitespace-only input produces no chunks -/

lemma chunkLoop_ws (text : List Char) (cs ov : Int) (h : ∀ c ∈ text, pyIsSpace c = true) :
    ∀ (fuel : Nat) (s : Int), chunkLoop text cs ov fuel s = [] := by
  intro fuel
  induction fuel with
  | zero => intro s; rfl
  | succ n ih =>
    intro s
    rw [chunkLoop]
    by_cases hlt : s < (text.length : Int)
    · rw [if_pos hlt]
      have hemp : pyStrip (pySlice text s (nextEnd text cs s)) = [] :=
        pyStrip_nil_of_all _ (fun c hc => h c (pySlice_subset text _ _ c hc))
      rw [if_pos hemp]
      exact ih _
    · rw [if_neg hlt]

lemma chunk_text_ws (text : List Char) (cs ov : Int) (h : ∀ c ∈ text, pyIsSpace c = true) :
    chunk_text text cs ov = [] := by
  unfold chunk_text
  split
  · rfl
  · exact chunkLoop_ws text cs ov h 10000 0

/-! ## Claim theorems (first batch) -/

lemma apply_op_sync (embed : List Char → List ℚ) (s : RAGState) (op : RAGOp)
    (hs : s.documents.length = s.index.vectors.length) :
    (apply_op embed s op).documents.length = (apply_op embed s op).index.vectors.length := by
  cases op with
  | add t src =>
    simp only [apply_op, add_document]
    by_cases hch : chunk_text t s.chunk_size s.chunk_overlap = []
    · rw [if_pos hch]
      exact hs
    · rw [if_neg hch]
      simp only [List.length_append, List.length_map, List.enum_length]
      omega
  | clearAll =>
    simp [apply_op, clear]

/-- Claim C1: after any sequence of completed ingest/clear operations from a
fresh system, the number of stored chunk records equals the number of
vectors in the FAISS index (`len(self.documents) == self.index.ntotal`). -/
theorem C1_index_store_sync (embed : List Char → List ℚ) (dim : Nat) (cs ov : Int)
    (ops : List RAGOp) :
    (apply_ops embed ops (initRAG dim cs ov)).documents.length =
      (apply_ops embed ops (initRAG dim cs ov)).index.vectors.length := by
  suffices h : ∀ s : RAGState, s.documents.length = s.index.vectors.length →
      (apply_ops embed ops s).documents.length = (apply_ops embed ops s).index.vectors.length by
    exact h _ rfl
  unfold apply_ops
  induction ops with
  | nil => intro s hs; exact hs
  | cons op rest ih =>
    intro s hs
    simp only [List.foldl_cons]
    exact ih _ (apply_op_sync embed s op hs)

/-- Claim C9: `save_index`, then `clear`, then `load_index` of that snapshot
restores the document count, the source listing and the retrieval results of
any fixed query to their pre-clear values. -/
theorem C9_round_trip (embed : List Char → List ℚ) (s : RAGState)
    (query : List Char) (top_k : Int) :
    get_document_count (load_index (some (save_index s)) (clear s)) = get_document_count s ∧
    list_documents (load_index (some (save_index s)) (clear s)) = list_documents s ∧
    retrieve embed (load_index (some (save_index s)) (clear s)) query top_k =
      retrieve embed s query top_k := by
  have h : load_index (some (save_index s)) (clear s) = s := by
    cases s
    rfl
  rw [h]
  exact ⟨rfl, rfl, rfl⟩

/-- Claim C10: `add_document` on text whose chunking yields no chunks (empty
or whitespace-only text) returns normally and leaves the vector index size
and the stored document list unchanged. -/
theorem C10_whitespace_noop (embed : List Char → List ℚ) (s : RAGState)
    (text source : List Char) (h : ∀ c ∈ text, pyIsSpace c = true) :
    (add_document embed s text source).index.vectors.length = s.index.vectors.length ∧
    (add_document embed s text source).documents = s.documents := by
  have hc := chunk_text_ws text s.chunk_size s.chunk_overlap h
  unfold add_document
  rw [if_pos hc]
  exact ⟨rfl, rfl⟩

/-- Witness for C10 at a concrete whitespace-only document. -/
theorem C10_witness :
    (∀ c ∈ ("  ".toList), pyIsSpace c = true) ∧
    (add_document (fun _ => [0]) w3state ("  ".toList) ("w".toList)).index.vectors.length =
      w3state.index.vectors.length ∧
    (add_document (fun _ => [0]) w3state ("  ".toList) ("w".toList)).documents =
      w3state.documents :=
  ⟨by decide, C10_whitespace_noop (fun _ => [0]) w3state ("  ".toList) ("w".toList) (by decide)⟩




/-! ## Claim theorems (second batch) -/

/-- Claim C7: for every input text and every valid configuration
(`chunk_size > overlap >= 0`), every chunk except possibly the last is at
most `chunk_size + 2` characters long (2 being the longest sentence
delimiter).  The proof establishes the stronger bound `chunk_size`. -/
theorem C7_chunk_bound (text : List Char) (cs ov : Int)
    (hov : 0 ≤ ov) (hcs : ov < cs) :
    ∀ c ∈ (chunk_text text cs ov).dropLast, c.length ≤ cs.toNat + 2 := by
  intro c hc
  have hmem : c ∈ chunk_text text cs ov := by
    rw [List.dropLast_eq_take] at hc
    exact List.take_subset _ _ hc
  have hle : c.length ≤ cs.toNat := by
    unfold chunk_text at hmem
    by_cases ht : text = []
    · rw [if_pos ht] at hmem
      simp at hmem
    · rw [if_neg ht] at hmem
      exact chunkLoop_chunk_le text cs ov hov hcs 10000 0 (by omega) c hmem
  omega

/-- Witness for C7 at a concrete text and configuration. -/
theorem C7_witness :
    ((0 : Int) ≤ 1 ∧ (1 : Int) < 5) ∧
    ∀ c ∈ (chunk_text ("Hi. Bye now.".toList) 5 1).dropLast, c.length ≤ (5 : Int).toNat + 2 :=
  ⟨⟨by decide, by decide⟩,
    C7_chunk_bound ("Hi. Bye now.".toList) 5 1 (by decide) (by decide)⟩

/-- Claim C3: on a non-empty knowledge store, `retrieve` with `top_k <= 0`
returns the empty result and raises no error (`top_k <= 0` behaves as
`top_k = 0`). -/
theorem C3_retrieve_nonpos_topk (embed : List Char → List ℚ) (s : RAGState)
    (query : List Char) (top_k : Int) (hk : top_k ≤ 0) (hne : s.documents ≠ []) :
    retrieve embed s query top_k = [] := by
  have hlen : ¬ (s.documents.length = 0) := fun h => hne (List.length_eq_zero.mp h)
  unfold retrieve
  rw [if_neg hlen]
  have hk2 : min top_k (s.documents.length : Int) ≤ 0 := le_trans (min_le_left _ _) hk
  unfold index_search
  rw [if_pos hk2]
  rfl

/-- Witness for C3 at a concrete non-empty store and `top_k = 0`. -/
theorem C3_witness :
    ((0 : Int) ≤ 0 ∧ w3state.documents ≠ []) ∧
    retrieve (fun _ => [0, 0]) w3state ("q".toList) 0 = [] :=
  ⟨⟨le_refl 0, by decide⟩,
    C3_retrieve_nonpos_topk (fun _ => [0, 0]) w3state ("q".toList) 0 (le_refl 0) (by decide)⟩

/-- Counterexample to claim C4: loading a snapshot whose recorded dimension
(2) differs from the configured embedding dimension (3) does not fail — it
silently installs the mismatched index. -/
theorem C4_counterexample :
    (load_index (some c4snap) c4state).index.dim = 2 ∧
    c4state.embedding_dim = 3 ∧
    (load_index (some c4snap) c4state).index.dim ≠
      (load_index (some c4snap) c4state).embedding_dim :=
  ⟨rfl, rfl, by decide⟩

/-- Amended claim C4: `load_index` performs no dimension check — whenever a
snapshot is present, it unconditionally replaces the in-memory index and
document store with the snapshot's contents, even when the snapshot's
recorded dimension differs from the configured embedding dimension, and no
error is raised. -/
theorem C4_silent_replace (s : RAGState) (snap : Snapshot)
    (h : snap.index.dim ≠ s.embedding_dim) :
    (load_index (some snap) s).index = snap.index ∧
    (load_index (some snap) s).documents = snap.documents :=
  ⟨rfl, rfl⟩

/-- Witness for the amended C4 at the concrete mismatched snapshot. -/
theorem C4_witness :
    c4snap.index.dim ≠ c4state.embedding_dim ∧
    (load_index (some c4snap) c4state).index = c4snap.index ∧
    (load_index (some c4snap) c4state).documents = c4snap.documents :=
  ⟨by decide, C4_silent_replace c4state c4snap (by decide)⟩

/-- Claim C5: `synthesize_answer` always returns a string (it is a total
function into `List Char`); when the generation backend fails on the built
prompt, the failure is caught and the result is the deterministic extractive
fallback (or the fixed no-information message for empty context), never a
propagated error. -/
theorem C5_synthesize_fallback (cfg : LLMConfig)
    (backend : List Char → Except Unit (List Char))
    (query : List Char) (docs : List (DocRecord × ℚ))
    (hb : backend (build_prompt query docs) = Except.error ()) :
    synthesize_answer cfg backend query docs =
      if docs = [] then no_info_msg else fallback_answer query docs := by
  by_cases hd : docs = []
  · simp [synthesize_answer, hd]
  · rw [if_neg hd]
    unfold synthesize_answer
    rw [if_neg hd]
    cases hp : cfg.provider
    · rw [hb]
    · by_cases hcl : cfg.hf_client
      · rw [if_pos hcl, hb]
      · rw [if_neg hcl]
    · rfl

/-- Witness for C5: a backend that always fails, one context document. -/
theorem C5_witness :
    ((fun _ => (Except.error () : Except Unit (List Char)))
        (build_prompt ("q".toList) [(w5doc, 0)]) = Except.error ()) ∧
    synthesize_answer { provider := Provider.openai, hf_client := false }
        (fun _ => Except.error ()) ("q".toList) [(w5doc, 0)] =
      fallback_answer ("q".toList) [(w5doc, 0)] := by
  constructor
  · rfl
  · have h := C5_synthesize_fallback { provider := Provider.openai, hf_client := false }
      (fun _ => Except.error ()) ("q".toList) [(w5doc, 0)] rfl
    simpa using h

/-! ## C2: the chunker performs no configuration validation -/

lemma pyRfind_degenerate (text sub : List Char) (a : Int) (h : sub ≠ []) :
    pyRfind text sub a a = -1 := by
  have h2 : 0 < sub.length := List.length_pos.mpr h
  unfold pyRfind
  rw [if_pos (by omega)]

lemma tryDelims_degenerate (text : List Char) (s : Int) :
    ∀ ds, (∀ d ∈ ds, d ≠ []) → tryDelims text s s ds = none := by
  intro ds
  induction ds with
  | nil => intro _; rfl
  | cons d rest ih =>
    intro h
    have hd : pyRfind text d s s = -1 :=
      pyRfind_degenerate text d s (h d (List.mem_cons_self d rest))
    simp only [tryDelims, if_pos hd]
    exact ih (fun x hx => h x (List.mem_cons_of_mem d hx))

lemma stepEnd_degenerate (text : List Char) (s : Int) : stepEnd text s s = s := by
  have h1 : tryDelims text s s sentenceDelims = none :=
    tryDelims_degenerate text s sentenceDelims (by decide)
  have h2 : pyRfind text [' '] s s = -1 := pyRfind_degenerate text [' '] s (by decide)
  simp only [stepEnd, h1, if_pos h2]

lemma pySlice_degenerate (text : List Char) (a : Int) : pySlice text a a = [] := by
  simp [pySlice]

lemma chunkLoop_zero (text : List Char) :
    ∀ (fuel : Nat) (s : Int), chunkLoop text 0 0 fuel s = [] := by
  intro fuel
  induction fuel with
  | zero => intro s; rfl
  | succ n ih =>
    intro s
    rw [chunkLoop]
    by_cases hlt : s < (text.length : Int)
    · rw [if_pos hlt]
      have he : nextEnd text 0 s = s := by
        unfold nextEnd
        by_cases hc : s + 0 < (text.length : Int)
        · rw [if_pos hc, add_zero, stepEnd_degenerate]
        · rw [if_neg hc, add_zero]
      rw [he, pySlice_degenerate]
      rw [if_pos (by rfl)]
      exact ih _
    · rw [if_neg hlt]

/-- Counterexample to claim C2: the violating configuration
`chunk_size = 0, overlap = 0` does not fail with a `ConfigurationError` —
`chunk_text` returns normally with a chunk list (here the empty one). -/
theorem C2_counterexample : chunk_text ("hello world".toList) 0 0 = [] := by decide

/-- Amended claim C2: `chunk_text` performs no configuration validation
(no `ConfigurationError` exists in the code); a call with a violating
configuration returns normally with a chunk list — with
`chunk_size = 0, overlap = 0` it returns the empty list for every text. -/
theorem C2_no_validation (text : List Char) : chunk_text text 0 0 = [] := by
  unfold chunk_text
  split
  · rfl
  · exact chunkLoop_zero text 10000 0

/-! ## C6: whitespace stripping breaks exact reconstruction -/

/-- Counterexample to claim C6: chunking `"ab cd"` with
`chunk_size = 4, overlap = 0` yields `["ab", "cd"]` — the space at the word
boundary is stripped from the first chunk, so concatenating the chunks
(de-duplicating the 0-character overlap) gives `"abcd"`, not the original
text. -/
theorem C6_counterexample :
    chunk_text ("ab cd".toList) 4 0 = ["ab".toList, "cd".toList] ∧
    reconstruct 0 (chunk_text ("ab cd".toList) 4 0) ≠ "ab cd".toList := by decide

lemma chunkLoop_stop (text : List Char) (cs ov : Int) :
    ∀ (fuel : Nat) (s : Int), (text.length : Int) ≤ s → chunkLoop text cs ov fuel s = [] := by
  intro fuel s h
  cases fuel with
  | zero => rfl
  | succ n =>
    rw [chunkLoop]
    rw [if_neg (by omega)]

lemma pySlice_whole (text : List Char) (cs : Int) (h : (text.length : Int) ≤ cs) :
    pySlice text 0 cs = text := by
  have h0 : clampIdx text.length 0 = 0 := by
    unfold clampIdx
    split <;> omega
  have hcs : clampIdx text.length cs = text.length := by
    unfold clampIdx
    split <;> omega
  simp [pySlice, h0, hcs]

lemma chunk_text_single (text : List Char) (cs ov : Int) (h1 : text ≠ [])
    (h2 : pyStrip text = text) (h3 : (text.length : Int) ≤ cs) :
    chunk_text text cs ov = [text] := by
  have hL : 0 < text.length := List.length_pos.mpr h1
  unfold chunk_text
  rw [if_neg h1]
  have h10000 : (10000 : Nat) = 9999 + 1 := rfl
  rw [h10000, chunkLoop]
  rw [if_pos (by exact_mod_cast hL)]
  have he : nextEnd text cs 0 = cs := by
    unfold nextEnd
    rw [zero_add]
    rw [if_neg (by omega)]
  rw [he, pySlice_whole text cs h3, h2]
  rw [if_neg h1]
  have hns : nextStart text cs ov 0 cs = (text.length : Int) := by
    unfold nextStart
    rw [if_neg (by omega)]
    rw [if_neg (by omega)]
  rw [hns, chunkLoop_stop text cs ov 9999 _ (le_refl _)]

/-- Amended claim C6: because every emitted chunk is whitespace-stripped,
reconstruction holds only when no whitespace is trimmed at chunk
boundaries; in particular, for every non-empty text that equals its own
strip and fits in one chunk (`len(text) <= chunk_size`), the chunk list is
`[text]` and the overlap-deduplicating concatenation reconstructs the text
exactly. -/
theorem C6_single_chunk_roundtrip (text : List Char) (cs ov : Int) (k : Nat)
    (h1 : text ≠ []) (h2 : pyStrip text = text) (h3 : (text.length : Int) ≤ cs) :
    reconstruct k (chunk_text text cs ov) = text := by
  rw [chunk_text_single text cs ov h1 h2 h3]
  simp [reconstruct]

/-- Witness for the amended C6 at a concrete one-chunk text. -/
theorem C6_witness :
    ("hello".toList ≠ [] ∧ pyStrip ("hello".toList) = "hello".toList ∧
      (("hello".toList).length : Int) ≤ 10) ∧
    reconstruct 0 (chunk_text ("hello".toList) 10 2) = "hello".toList :=
  ⟨⟨by decide, by decide, by decide⟩,
    C6_single_chunk_roundtrip ("hello".toList) 10 2 0 (by decide) (by decide) (by decide)⟩

/-! ## C8: the cursor can stall, and the iteration cap is hit silently -/

lemma c8_step (n : Nat) :
    chunkLoop c8text 10 5 (n + 1) 0 = c8chunk :: chunkLoop c8text 10 5 n 0 := rfl

lemma c8_loop (n : Nat) :
    chunkLoop c8text 10 5 n 0 = List.replicate n c8chunk := by
  induction n with
  | zero => rfl
  | succ k ih => rw [c8_step, ih, List.replicate_succ]

/-- Claim C8 fails on the code: on the 35-character text
`"xxx. " ++ 30 y's` with `chunk_size = 10, overlap = 5` (a valid
configuration), the cursor update `start = end - overlap` reproduces
`start = 0` on every iteration, so the loop runs all 10000 permitted
iterations — far beyond any bound proportional to
`len(text) / (chunk_size - overlap) = 7` — emitting the same chunk 10000
times, and the cap is then hit silently (a log warning), with no
`ChunkingOverrunError` and the thirty `y`s never chunked. -/
theorem C8_livelock :
    chunk_text c8text 10 5 = List.replicate 10000 c8chunk ∧
    (chunk_text c8text 10 5).length = 10000 ∧ c8text.length = 35 := by
  have h : chunk_text c8text 10 5 = chunkLoop c8text 10 5 10000 0 := by
    unfold chunk_text
    rw [if_neg (by decide)]
  refine ⟨?_, ?_, by decide⟩
  · rw [h, c8_loop 10000]
  · rw [h, c8_loop 10000, List.length_replicate]

/-! ## Concrete evaluations of the embedded chunker -/

example : chunk_text ("ab cd".toList) 4 0 = ["ab".toList, "cd".toList] := by decide

example : chunk_text ("hello".toList) 10 2 = ["hello".toList] := by decide

example : chunk_text [] 500 50 = [] := by decide

example : chunk_text ("Hi. Bye now.".toList) 5 1 =
    ["Hi.".toList, "Bye".toList, "now.".toList] := by decide
